import Mathlib

/-!
Verification of the bagit/checksum/batch handlers of the automation-examples
repository.  Python code is shallowly embedded: byte strings become
`List Nat` or `String` (one `Char` per byte, ASCII), fallible code returns
`Except PyErr`, and opaque cryptographic digests are a function parameter
`H : String → List Nat → String` (algorithm name, accumulated bytes, hex
digest); hashlib guarantees that incrementally updating a digest object with
chunks equals digesting the concatenation, which is why the parameter is
applied to the concatenated bytes.
-/

namespace Py

/-- Models the Python regex class \s over the ASCII range:
space, tab, newline, carriage return, vertical tab, form feed. -/
def isPySpace (c : Char) : Bool :=
  c == ' ' || c == '\t' || c == '\n' || c == '\x0d' || c == '\x0b' || c == '\x0c'

/-- Models the Python regex class \w over the ASCII range. -/
def isWordChar (c : Char) : Bool :=
  c.isAlphanum || c == '_'

/-- Helper for `pyReadlines`; the accumulator holds the current line reversed. -/
def pyReadlinesAux : List Char → List Char → List (List Char)
  | [], acc => if acc.isEmpty then [] else [acc.reverse]
  | c :: rest, acc =>
      if c = '\n' then (acc.reverse ++ ['\n']) :: pyReadlinesAux rest []
      else pyReadlinesAux rest (c :: acc)

/-- Models iterating a Python binary file object line by line (also
`readlines`): splits after each newline byte, keeping the newline, with no
trailing empty line. -/
def pyReadlines (cs : List Char) : List (List Char) :=
  pyReadlinesAux cs []

/-- Models the Python str.strip method (no arguments): removes leading and
trailing whitespace. -/
def pyStrip (l : List Char) : List Char :=
  ((l.dropWhile isPySpace).reverse.dropWhile isPySpace).reverse

/-- Helper for `pySplitWS`; the accumulator holds the current token reversed. -/
def pySplitWSAux : List Char → List Char → List (List Char)
  | [], acc => if acc.isEmpty then [] else [acc.reverse]
  | c :: rest, acc =>
      if isPySpace c then
        if acc.isEmpty then pySplitWSAux rest []
        else acc.reverse :: pySplitWSAux rest []
      else pySplitWSAux rest (c :: acc)

/-- Models the Python str.split method with no separator: split on runs of
whitespace, dropping empty tokens. -/
def pySplitWS (l : List Char) : List (List Char) :=
  pySplitWSAux l []

/-- Helper for `splitOnChar`; the accumulator holds the current piece
reversed. -/
def splitOnCharAux (sep : Char) : List Char → List Char → List (List Char)
  | [], acc => [acc.reverse]
  | c :: rest, acc =>
      if c = sep then acc.reverse :: splitOnCharAux sep rest []
      else splitOnCharAux sep rest (c :: acc)

/-- Models the Python str.split method with a one-character separator:
empty pieces are kept and the empty string yields one empty piece. -/
def splitOnChar (sep : Char) (cs : List Char) : List (List Char) :=
  splitOnCharAux sep cs []

/-- Models the Python str.startswith method. -/
def strStartsWith (s pre : String) : Bool :=
  pre.data.isPrefixOf s.data

/-- Lowercase hexadecimal digit for a value below 16. -/
def hexDigitChar (n : Nat) : Char :=
  if n < 10 then Char.ofNat (48 + n) else Char.ofNat (87 + n)

/-- Core of `hexLower`, most significant digit first; structural recursion
on a fuel argument so that the kernel can evaluate it (the fuel n + 1 is
an upper bound on the number of hex digits of n, and dividing by 16
strictly decreases a value of at least 16, so the fuel never runs out on
the call from `hexLower`). -/
def hexLowerCore : Nat → Nat → List Char
  | 0, _ => []
  | fuel + 1, n =>
      if n < 16 then [hexDigitChar n]
      else hexLowerCore fuel (n / 16) ++ [hexDigitChar (n % 16)]

/-- Models the Python expression format(value, "x"): lowercase hexadecimal,
no padding, "0" for zero. -/
def hexLower (n : Nat) : String :=
  String.mk (hexLowerCore (n + 1) n)

/-- One byte of the standard Adler-32 update: the state is the pair (a, b),
both already reduced modulo 65521. -/
def adlerStep (st : Nat × Nat) (x : Nat) : Nat × Nat :=
  let a := (st.1 + x) % 65521
  (a, (st.2 + a) % 65521)

/-- Models zlib.adler32(data, value): unpack the running value into the two
16-bit halves, fold the per-byte update over the data, and repack. -/
def zlib_adler32 (data : List Nat) (value : Nat) : Nat :=
  let st := data.foldl adlerStep (value % 65536, value / 65536)
  st.2 * 65536 + st.1

/-- Models reading a byte source in fixed-size chunks via
iter(lambda: fd.read(n), b""): chunk size 0 yields no chunks because
read(0) returns the empty sentinel immediately. -/
def chunksOfAux : Nat → Nat → List α → List (List α)
  | _, _, [] => []
  | 0, _, _ :: _ => []
  | _ + 1, 0, _ :: _ => []
  | fuel + 1, n + 1, x :: xs =>
      (x :: xs).take (n + 1) :: chunksOfAux fuel (n + 1) ((x :: xs).drop (n + 1))

def chunksOf (n : Nat) (l : List α) : List (List α) :=
  chunksOfAux l.length n l

/-- The bytes of a file whose content is modelled as an ASCII string. -/
def fileBytes (s : String) : List Nat :=
  s.data.map Char.toNat

/-- Models os.path.splitext(name)[1] for a plain file name (no directory
separator): the extension starts at the last dot, unless every character
before that dot is itself a dot, in which case there is no extension. -/
def splitextExt (name : String) : String :=
  let rev := name.data.reverse
  let suf := rev.takeWhile (fun c => c != '.')
  match rev.dropWhile (fun c => c != '.') with
  | [] => ""
  | _ :: pre => if pre.all (fun c => c == '.') then "" else String.mk ('.' :: suf.reverse)

/-- Matcher for the regex fragment [0-9]+\s*$ . -/
def matchC : List Char → Bool
  | [] => false
  | x :: rest => x.isDigit && (rest.dropWhile Char.isDigit).all isPySpace

/-- Matcher for the regex fragment [0-9]*.[0-9]+\s*$ where the dot matches
any character other than a newline (Python re without DOTALL); implemented
with explicit backtracking over whether the head char extends the first
digit run or is consumed by the dot. -/
def matchB : List Char → Bool
  | [] => false
  | c :: rest => (c.isDigit && matchB rest) || (c != '\n' && matchC rest)

/-- Matcher for the regex fragment [0-9]+.[0-9]+\s*$ . -/
def matchA : List Char → Bool
  | [] => false
  | c :: rest => c.isDigit && matchB rest

def lit1 : List Char := "BagIt-Version: ".data

def lit2 : List Char := "Tag-File-Character-Encoding: ".data

/-- Models re.match applied to the first bagit.txt line pattern
BagIt-Version: [0-9]+.[0-9]+ anchored with leading \s* and trailing \s*$ .
The leading \s* is maximal without loss because the literal starts with a
non-space character. -/
def matchLine1 (l : List Char) : Bool :=
  lit1.isPrefixOf (l.dropWhile isPySpace) &&
    matchA ((l.dropWhile isPySpace).drop lit1.length)

/-- Models re.match applied to the second bagit.txt line pattern
Tag-File-Character-Encoding: \w+ anchored with leading \s* and no end
anchor: only one word character is required after the literal. -/
def matchLine2 (l : List Char) : Bool :=
  lit2.isPrefixOf (l.dropWhile isPySpace) &&
    (match (l.dropWhile isPySpace).drop lit2.length with
     | [] => false
     | c :: _ => isWordChar c)

end Py

/-- The exceptions the handlers can raise.  Constructors that the source
raises as JobException carry the pieces the corresponding f-string
interpolates (quotes of the original messages are elided); the remaining
constructors model built-in Python exceptions. -/
inductive PyErr where
  | job (msg : String)
  | jobSets (msg : String) (extra : Finset String) (missing : Finset String)
  | mismatch (algorithm : String) (path : String) (expected : String) (calculated : String)
  | typeError (msg : String)
  | attrError (msg : String)
  | keyError (msg : String)
  | indexError (msg : String)
  | valueError (msg : String)
  | osError (msg : String)
deriving DecidableEq

/-- Whether the exception is a JobException (including the structured
JobException variants), as opposed to an unexpected built-in exception. -/
def PyErr.isJobExc : PyErr → Bool
  | .job _ => true
  | .jobSets _ _ _ => true
  | .mismatch _ _ _ _ => true
  | _ => false

instance {ε α : Type} [DecidableEq ε] [DecidableEq α] : DecidableEq (Except ε α) :=
  fun x y =>
    match x, y with
    | .ok a, .ok b =>
        if h : a = b then .isTrue (by rw [h]) else .isFalse (fun hh => h (Except.ok.inj hh))
    | .ok _, .error _ => .isFalse (fun hh => Except.noConfusion hh)
    | .error _, .ok _ => .isFalse (fun hh => Except.noConfusion hh)
    | .error e, .error f =>
        if h : e = f then .isTrue (by rw [h]) else .isFalse (fun hh => h (Except.error.inj hh))

namespace ValidateMounted

/-!
Embedding of src/lambdas/bagit-uploader-validate-mounted/handler.py.
An opened archive is modelled by its entry-name list and an association
list from entry name to (ASCII) content; zip and tar archives present the
same interface to this handler.
-/

/-- Models AVAILABLE_CHECKSUM_ALGORITHMS, a Python set (union of adler32
and hashlib.algorithms_available) whose iteration order is arbitrary;
fixed here as a list with adler32 first. -/
def ALGORITHMS : List String :=
  ["adler32", "md5", "sha1", "sha224", "sha256", "sha384", "sha512",
   "blake2b", "blake2s", "sha3_224", "sha3_256", "sha3_384", "sha3_512"]

def READ_CHUNK_SIZE : Nat := 10 * 1024 ^ 2

def SUPPORTED_URL_SCHEMAS : List String := ["root:", "http:", "https:"]

structure ArchiveData where
  files : List String
  contents : List (String × String)
deriving DecidableEq

/-- Models BagitArchive.open_file: look the entry up; a missing entry
raises (KeyError for zip archives). -/
def open_file (arc : ArchiveData) (path : String) : Except PyErr String :=
  match arc.contents.lookup path with
  | some c => Except.ok c
  | none => Except.error (.keyError path)

/-- Whether an entry path has exactly two slash-separated components and
ends in bagit.txt, as tested by BagitArchive.get_bagit_dir_name. -/
def isBagitRootEntry (f : String) : Bool :=
  let t := Py.splitOnChar '/' f.data
  t.length == 2 && t.getD 1 [] == "bagit.txt".data

/-- Models BagitArchive.get_bagit_dir_name: first entry of the form
root/bagit.txt gives the bagit root; otherwise JobException. -/
def get_bagit_dir_name (arc : ArchiveData) : Except PyErr String :=
  match arc.files.find? isBagitRootEntry with
  | some f => Except.ok (String.mk ((Py.splitOnChar '/' f.data).headD []))
  | none => Except.error (.job "Bagit directory not found")

/-- Models BagitArchive.build_file_path. -/
def build_file_path (arc : ArchiveData) (rel : String) (is_dir : Bool) :
    Except PyErr String := do
  let root ← get_bagit_dir_name arc
  Except.ok (if is_dir then root ++ "/" ++ rel ++ "/" else root ++ "/" ++ rel)

/-- The manifest files present in the archive for a resolved bagit root,
in the iteration order of `ALGORITHMS`. -/
def manifestList (arc : ArchiveData) (root : String) : List String :=
  (ALGORITHMS.filter
      (fun alg => (root ++ "/manifest-" ++ alg ++ ".txt") ∈ arc.files)).map
    (fun alg => root ++ "/manifest-" ++ alg ++ ".txt")

/-- Models BagitArchive.list_manifest_files when called correctly (with no
extra argument, as at the call site in validate_payload). -/
def list_manifest_files (arc : ArchiveData) : Except PyErr (List String) := do
  let root ← get_bagit_dir_name arc
  Except.ok (manifestList arc root)

/-- Models calculate_checksum(data_stream, algorithm): the stream is the
list of chunks read from the file.  For adler32 the running value is
seeded at 1 and updated chunk by chunk; any other algorithm feeds every
chunk to an incrementally updated hashlib digest, which by the hashlib
contract digests the concatenation of the chunks. -/
def calculate_checksum (H : String → List Nat → String)
    (chunks : List (List Nat)) (algorithm : String) : String :=
  if algorithm = "adler32" then
    Py.hexLower (chunks.foldl (fun value data => Py.zlib_adler32 data value) 1)
  else
    H algorithm (chunks.foldl (fun acc data => acc ++ data) [])

/-- Models validate_file_checksum: open the file, stream it in
READ_CHUNK_SIZE chunks through calculate_checksum, and compare with the
expected checksum; a mismatch raises a JobException carrying the
algorithm, path, expected and calculated values. -/
def validate_file_checksum (H : String → List Nat → String) (arc : ArchiveData)
    (file_path : String) (algorithm : String) (exp_checksum : String) :
    Except PyErr Unit := do
  let content ← open_file arc file_path
  let checksum :=
    calculate_checksum H (Py.chunksOf READ_CHUNK_SIZE (Py.fileBytes content)) algorithm
  if checksum ≠ exp_checksum then
    Except.error (.mismatch algorithm file_path exp_checksum checksum)
  else
    Except.ok ()

/-- Loop of parse_manifest_file over the lines of a manifest, with 1-based
line numbers; each line must strip-split into exactly a checksum and a
path, otherwise unpacking raises and is converted to a JobException. -/
def parseManifestLines (manifest_file : String) :
    Nat → List (List Char) → Except PyErr (List (String × String))
  | _, [] => Except.ok []
  | n, line :: rest =>
      match Py.pySplitWS (Py.pyStrip line) with
      | [c, p] => do
          let tl ← parseManifestLines manifest_file (n + 1) rest
          Except.ok ((String.mk c, String.mk p) :: tl)
      | _ =>
          Except.error
            (.job ("Failed to parse line number " ++ toString n ++ " in " ++
              manifest_file ++ " file"))

/-- Models parse_manifest_file. -/
def parse_manifest_file (manifest_file : String) (arc : ArchiveData) :
    Except PyErr (List (String × String)) := do
  let content ← open_file arc manifest_file
  parseManifestLines manifest_file 1 (Py.pyReadlines content.data)

/-- Loop of parse_fetch_file over the lines of fetch.txt: each line must
strip-split into url, numeric size and path; the path must be under data/
and the url must use a supported schema. -/
def parseFetchLines : Nat → List (List Char) → Except PyErr (List String)
  | _, [] => Except.ok []
  | n, line :: rest =>
      match Py.pySplitWS (Py.pyStrip line) with
      | [u, s, p] =>
          if s.isEmpty || !s.all Char.isDigit then
            Except.error
              (.job ("Failed to extract url, size and path from line number " ++
                toString n ++ " in fetch.txt"))
          else if !Py.strStartsWith (String.mk p) "data/" then
            Except.error
              (.job ("File path not within data/ directory (fetch.txt line " ++
                toString n ++ ")"))
          else if !SUPPORTED_URL_SCHEMAS.any (fun sc => Py.strStartsWith (String.mk u) sc) then
            Except.error
              (.job ("URL from line number " ++ toString n ++
                " in fetch.txt is not supported"))
          else do
            let tl ← parseFetchLines (n + 1) rest
            Except.ok (String.mk p :: tl)
      | _ =>
          Except.error
            (.job ("Failed to extract url, size and path from line number " ++
              toString n ++ " in fetch.txt"))

/-- Models parse_fetch_file: absent fetch.txt yields no paths. -/
def parse_fetch_file (arc : ArchiveData) : Except PyErr (List String) := do
  let fetch_file ← build_file_path arc "fetch.txt" false
  if fetch_file ∈ arc.files then do
    let content ← open_file arc fetch_file
    parseFetchLines 1 (Py.pyReadlines content.data)
  else
    Except.ok []

/-- Models validate_bagit_txt on the content of bagit.txt: readlines must
give exactly two lines, the first matching the BagIt-Version pattern and
the second the Tag-File-Character-Encoding pattern. -/
def validate_bagit_txt_content (content : String) : Except PyErr Unit :=
  match Py.pyReadlines content.data with
  | [l1, l2] =>
      if !Py.matchLine1 l1 then
        Except.error
          (.job "Invalid Tag-File-Character-Encoding definition in 1st line in bagit.txt")
      else if !Py.matchLine2 l2 then
        Except.error
          (.job "Invalid Tag-File-Character-Encoding definition in 2nd line in bagit.txt")
      else Except.ok ()
  | _ => Except.error (.job "Invalid bagit.txt format")

/-- Models validate_bagit_txt: open bagit.txt and validate its content. -/
def validate_bagit_txt (arc : ArchiveData) : Except PyErr Unit := do
  let p ← build_file_path arc "bagit.txt" false
  let content ← open_file arc p
  validate_bagit_txt_content content

/-- The payload set computed by validate_payload: every entry whose name
starts with the full data-directory prefix (including the directory entry
itself), unioned with the paths declared in fetch.txt (which are relative
paths starting with data). -/
def payload_files (arc : ArchiveData) (root : String) (fetched : List String) :
    Finset String :=
  (arc.files.filter (fun f => Py.strStartsWith f (root ++ "/data/"))).toFinset ∪
    fetched.toFinset

/-- The set of paths referenced by a parsed manifest. -/
def refSet (entries : List (String × String)) : Finset String :=
  (entries.map Prod.snd).toFinset

/-- The message prefix of the payload-mismatch JobException for a manifest
file (the full Python message additionally interpolates the two
difference sets, carried structurally by the error). -/
def mismatchMsg (manifest_file : String) : String :=
  "Files referenced by " ++ manifest_file ++ " do not match with payload files."

/-- Loop of validate_payload over the manifest files: the first manifest
whose referenced set differs from the payload set raises a JobException
reporting both difference sets. -/
def validatePayloadLoop (arc : ArchiveData) (payload : Finset String) :
    List String → Except PyErr Unit
  | [] => Except.ok ()
  | m :: rest => do
      let entries ← parse_manifest_file m arc
      if payload ≠ refSet entries then
        Except.error
          (.jobSets (mismatchMsg m) (payload \ refSet entries) (refSet entries \ payload))
      else
        validatePayloadLoop arc payload rest

/-- Models validate_payload. -/
def validate_payload (arc : ArchiveData) : Except PyErr Unit := do
  let data_dir ← build_file_path arc "data/" false
  let fetched ← parse_fetch_file arc
  let payload := (arc.files.filter (fun f => Py.strStartsWith f data_dir)).toFinset ∪
    fetched.toFinset
  let manifests ← list_manifest_files arc
  validatePayloadLoop arc payload manifests

/-- Loop body of validate_any_tagmanifest_file for one tagmanifest file:
parse every line, require each referenced file to exist in the archive,
and verify its checksum with the algorithm of the file name. -/
def checkTagEntries (H : String → List Nat → String) (arc : ArchiveData)
    (tagmanifest_file : String) (algorithm : String) :
    List (String × String) → Except PyErr Unit
  | [] => Except.ok ()
  | (exp_checksum, file_rel_path) :: rest => do
      let file_path ← build_file_path arc file_rel_path false
      if file_path ∉ arc.files then
        Except.error
          (.job (file_path ++ " referenced by " ++ tagmanifest_file ++ " not found"))
      else do
        validate_file_checksum H arc file_path algorithm exp_checksum
        checkTagEntries H arc tagmanifest_file algorithm rest

/-- Validation of one present tagmanifest file. -/
def checkTagmanifest (H : String → List Nat → String) (arc : ArchiveData)
    (tagmanifest_file : String) (algorithm : String) : Except PyErr Unit := do
  let entries ← parse_manifest_file tagmanifest_file arc
  checkTagEntries H arc tagmanifest_file algorithm entries

/-- Loop of validate_any_tagmanifest_file over the algorithm set: the
first algorithm whose tagmanifest file is present is validated and the
function then returns, skipping all remaining algorithms. -/
def anyTagLoop (H : String → List Nat → String) (arc : ArchiveData) :
    List String → Except PyErr Unit
  | [] => Except.ok ()
  | alg :: rest => do
      let tagmanifest_file ← build_file_path arc ("tagmanifest-" ++ alg ++ ".txt") false
      if tagmanifest_file ∈ arc.files then
        checkTagmanifest H arc tagmanifest_file alg
      else
        anyTagLoop H arc rest

/-- Models validate_any_tagmanifest_file. -/
def validate_any_tagmanifest_file (H : String → List Nat → String)
    (arc : ArchiveData) : Except PyErr Unit :=
  anyTagLoop H arc ALGORITHMS

/-- Models validate_structure.  After the bagit.txt presence check the
source evaluates archive.list_manifest_files(archive): list_manifest_files
is an lru_cache-wrapped method taking only self, and the bound method is
given archive as an extra positional argument, so the call always raises
TypeError before the manifest and data/ checks can run. -/
def validate_structure (arc : ArchiveData) : Except PyErr Unit := do
  let p ← build_file_path arc "bagit.txt" false
  if p ∉ arc.files then
    Except.error (.job "bagit.txt file not found")
  else
    Except.error
      (.typeError "list_manifest_files takes 1 positional argument but 2 were given")

/-- Models assert_valid_archive: structure, optional tagmanifest, bagit.txt
content, payload, in that order. -/
def assert_valid_archive (H : String → List Nat → String) (arc : ArchiveData) :
    Except PyErr Unit := do
  validate_structure arc
  validate_any_tagmanifest_file H arc
  validate_bagit_txt arc
  validate_payload arc

/-- The per-job results of run_job: the valid-archive result, the
invalid-archive result (JobException, with its message), and the
failed-to-validate result (any other exception, reported as a traceback). -/
inductive VMOutcome where
  | notArchive
  | invalid (archiveName : String) (reason : PyErr)
  | failed (archiveName : String) (reason : PyErr)
  | valid (archiveName : String)
deriving DecidableEq

/-- Models run_job for an archive of the given logical file type and name
that opens as the given entry/content model (zip and tar present the same
interface here; a file that fails to open at all would also produce the
failed outcome). -/
def run_job (H : String → List Nat → String) (ftype : String) (name : String)
    (arc : ArchiveData) : VMOutcome :=
  if ftype ≠ "REG" then VMOutcome.notArchive
  else if Py.splitextExt name = ".zip" ∨ Py.splitextExt name = ".tar" ∨
      Py.splitextExt name = ".tgz" ∨ Py.splitextExt name = ".gz" then
    match assert_valid_archive H arc with
    | Except.ok () => VMOutcome.valid name
    | Except.error e =>
        if e.isJobExc then VMOutcome.invalid name e else VMOutcome.failed name e
  else
    VMOutcome.invalid name
      (.job ("Unsupported archive type: " ++ Py.splitextExt name))

/-- A concrete digest instantiation for closed theorems; on every input
where it is used below, the digest branch is never consulted. -/
def H0 : String → List Nat → String := fun _ _ => ""

/-- A minimal valid bag as described by the spec: bagit.txt with
well-formed two-line content, a data/ directory with one (empty) payload
file, and a manifest-md5.txt listing that file with the correct MD5 of the
empty byte string. -/
def minimalBag : ArchiveData :=
  { files := ["bag/bagit.txt", "bag/data/", "bag/data/file1",
              "bag/manifest-md5.txt"],
    contents :=
      [("bag/bagit.txt", "BagIt-Version: 1.0\nTag-File-Character-Encoding: UTF-8"),
       ("bag/data/file1", ""),
       ("bag/manifest-md5.txt", "d41d8cd98f00b204e9800998ecf8427e data/file1")] }

/-- Executable form of the claim predicate for bagit.txt line 1:
exactly BagIt-Version: followed by an integer, a literal dot and an
integer, up to an optional trailing newline.  The greedy digit run is
exact because a digit cannot be the literal dot. -/
def specLine1 (l : List Char) : Bool :=
  let core := if l.getLast? = some '\n' then l.dropLast else l
  Py.lit1.isPrefixOf core &&
    (let r := core.drop Py.lit1.length
     let d1 := r.takeWhile Char.isDigit
     !d1.isEmpty &&
       (match r.dropWhile Char.isDigit with
        | '.' :: r3 => !r3.isEmpty && r3.all Char.isDigit
        | _ => false))

/-- Executable form of the claim predicate for bagit.txt line 2:
exactly Tag-File-Character-Encoding: followed by a non-empty token, up to
an optional trailing newline. -/
def specLine2 (l : List Char) : Bool :=
  let core := if l.getLast? = some '\n' then l.dropLast else l
  Py.lit2.isPrefixOf core &&
    (let t := core.drop Py.lit2.length
     !t.isEmpty && t.all Py.isWordChar)

/-- The acceptance predicate asserted by the claim for bagit.txt content
(used only to compare against the code). -/
def specBagitAccepts (content : String) : Bool :=
  match Py.pyReadlines content.data with
  | [l1, l2] => specLine1 l1 && specLine2 l2
  | _ => false

/-- The semantic characterization of the line-1 regex of the code:
optional whitespace, the BagIt-Version literal, a non-empty digit run,
one arbitrary non-newline character, a non-empty digit run, and optional
whitespace to the end of the line. -/
def SemLine1 (l : List Char) : Prop :=
  ∃ w1 d1 c d2 w2, l = w1 ++ Py.lit1 ++ d1 ++ c :: (d2 ++ w2) ∧
    (∀ x ∈ w1, Py.isPySpace x = true) ∧
    d1 ≠ [] ∧ (∀ x ∈ d1, x.isDigit = true) ∧
    c ≠ '\n' ∧
    d2 ≠ [] ∧ (∀ x ∈ d2, x.isDigit = true) ∧
    (∀ x ∈ w2, Py.isPySpace x = true)

/-- The semantic characterization of the line-2 regex of the code:
optional whitespace, the Tag-File-Character-Encoding literal, and at
least one word character (anything may follow). -/
def SemLine2 (l : List Char) : Prop :=
  ∃ w1 c t, l = w1 ++ Py.lit2 ++ c :: t ∧
    (∀ x ∈ w1, Py.isPySpace x = true) ∧ Py.isWordChar c = true

/-- A bagit.txt content the code accepts although the version separator is
not a literal dot. -/
def cx6 : String := "BagIt-Version: 1x2\nTag-File-Character-Encoding: utf8"

/-- A bag with one payload file and a manifest referencing it by its
manifest-relative path: the full-path payload set never matches the
relative referenced set, so validate_payload reports a mismatch. -/
def arc4 : ArchiveData :=
  { files := ["b/bagit.txt", "b/data/", "b/data/f", "b/manifest-md5.txt"],
    contents := [("b/manifest-md5.txt", "x data/f")] }

/-- The tagmanifest path built by build_file_path for a root and an
algorithm, with the same grouping of appends as the code. -/
def tagfilePath (root alg : String) : String :=
  root ++ "/" ++ ("tagmanifest-" ++ alg ++ ".txt")

/-- A bag with two tagmanifest files: the adler32 one (first in the
iteration order of the algorithm set) verifies, while the md5 one
references a file absent from the archive. -/
def cx7 : ArchiveData :=
  { files := ["b/bagit.txt", "b/tagmanifest-adler32.txt", "b/tagmanifest-md5.txt"],
    contents :=
      [("b/bagit.txt", "x"),
       ("b/tagmanifest-adler32.txt", "790079 bagit.txt"),
       ("b/tagmanifest-md5.txt", "deadbeef missing.txt")] }

end ValidateMounted

namespace ChecksumMounted

/-!
Embedding of src/lambdas/bagit-uploader-calculate-checksum-mounted/handler.py.
The mounted filesystem is modelled as an association list from absolute
path to a file record (regular-file flag, ASCII content, extended
attributes in listing order with string values); extended-attribute values
are modelled as already decoded text.
-/

def MOUNT_POINT : String := "/mnt/onedata"

def READ_CHUNK_SIZE : Nat := 10 * 1024 ^ 2

/-- The hashlib attribute names getattr(hashlib, algorithm) resolves; any
other name raises AttributeError. -/
def hashlibAlgos : List String :=
  ["md5", "sha1", "sha224", "sha256", "sha384", "sha512",
   "blake2b", "blake2s", "sha3_224", "sha3_256", "sha3_384", "sha3_512",
   "shake_128", "shake_256"]

structure FSFile where
  isFile : Bool
  content : String
  xattrs : List (String × String)
deriving DecidableEq

structure FS where
  entries : List (String × FSFile)
deriving DecidableEq

def FS.lookup (fs : FS) (p : String) : Option FSFile :=
  fs.entries.lookup p

/-- Models build_file_path: MOUNT_POINT/filePath. -/
def build_file_path (filePath : String) : String :=
  MOUNT_POINT ++ "/" ++ filePath

/-- Models matching an xattr name against the regex
checksum.(?P<algorithm>.+).expected anchored at both ends, where each dot
matches any character: the name decomposes as 8 literal characters, one
arbitrary character, a non-empty group, one arbitrary character and 8
literal characters, so the group is determined by the length. -/
def matchChecksumKey (name : String) : Option String :=
  let cs := name.data
  let n := cs.length
  if n ≥ 19 ∧ cs.take 8 = "checksum".data ∧ cs.drop (n - 8) = "expected".data then
    some (String.mk ((cs.drop 9).take (n - 18)))
  else
    none

/-- One job prepared by get_exp_file_checksums: absolute file path,
algorithm, expected checksum. -/
def Task := String × String × String

/-- Models the body of get_exp_file_checksums for one batch entry: for a
regular file, every xattr name matching the checksum pattern yields a job
whose expected checksum is fetched under the reconstructed canonical key
(with literal dots); a missing canonical key raises OSError, which
propagates. -/
def expChecksumsForFile (fs : FS) (filePath : String) :
    Except PyErr (List Task) :=
  let fp := build_file_path filePath
  match fs.lookup fp with
  | some f =>
      if f.isFile then
        go fp f.xattrs (f.xattrs.map Prod.fst)
      else
        Except.ok []
  | none => Except.ok []
where
  go (fp : String) (xattrs : List (String × String)) :
      List String → Except PyErr (List Task)
    | [] => Except.ok []
    | name :: rest =>
        match matchChecksumKey name with
        | some algorithm =>
            let key := "checksum." ++ algorithm ++ ".expected"
            match xattrs.lookup key with
            | some expected => do
                let tl ← go fp xattrs rest
                Except.ok ((fp, algorithm, expected) :: tl)
            | none => Except.error (.osError key)
        | none => go fp xattrs rest

/-- Models get_exp_file_checksums over the whole batch; note that it runs
before any job boundary, so an exception here escapes handle. -/
def get_exp_file_checksums (fs : FS) : List String → Except PyErr (List Task)
  | [] => Except.ok []
  | filePath :: rest => do
      let jobs ← expChecksumsForFile fs filePath
      let tl ← get_exp_file_checksums fs rest
      Except.ok (jobs ++ tl)

/-- Models calculate_checksum(file_path, algorithm): read the file in
chunks; adler32 folds the running value, other algorithms go through
getattr(hashlib, algorithm), raising AttributeError for unknown names. -/
def calculate_checksum (H : String → List Nat → String) (content : String)
    (algorithm : String) : Except PyErr String :=
  let chunks := Py.chunksOf READ_CHUNK_SIZE (Py.fileBytes content)
  if algorithm = "adler32" then
    Except.ok (Py.hexLower (chunks.foldl (fun value data => Py.zlib_adler32 data value) 1))
  else if algorithm ∈ hashlibAlgos then
    Except.ok (H algorithm (chunks.foldl (fun acc data => acc ++ data) []))
  else
    Except.error (.attrError ("module hashlib has no attribute " ++ algorithm))

/-- One entry of the per-file checksum info map. -/
structure CkInfo where
  expected : String
  calculated : String
  status : String
deriving DecidableEq

/-- The value produced for one task by verify_file_checksum: either an
AtmException carrying the converted exception, or an ExpFileChecksum named
tuple (file_path, file_info). -/
inductive VerifyRes where
  | exc (e : PyErr)
  | ok (file_path : String) (file_info : List (String × CkInfo))
deriving DecidableEq

/-- Models calculate_and_compare_checksums followed by the job-boundary
conversion in verify_file_checksum: checksum failures become JobException
messages, a mismatch raises a JobException, and a success returns the info
record.  The xattr write of the calculated checksum is modelled as
succeeding (its failure would also become a JobException). -/
def verify_file_checksum (H : String → List Nat → String) (fs : FS)
    (task : Task) : VerifyRes :=
  let (file_path, algorithm, expected) := task
  match fs.lookup file_path with
  | none => VerifyRes.exc (.job "Failed to calculate checksum due to: file not found")
  | some f =>
      match calculate_checksum H f.content algorithm with
      | Except.error e =>
          VerifyRes.exc
            (.job ("Failed to calculate checksum due to: " ++
              (match e with
               | .attrError m => m
               | .job m => m
               | _ => "error")))
      | Except.ok calculated =>
          if expected ≠ calculated then
            VerifyRes.exc
              (.job ("Expected file checksum: " ++ expected ++
                ", when calculated checksum is: " ++ calculated))
          else
            VerifyRes.ok file_path
              [(algorithm, { expected := expected, calculated := calculated,
                             status := "ok" })]

/-- One element of the resultsBatch list assembled by assemble_results:
either an exception payload, or the single generator object that the final
results_batch.append adds (modelled by the pairs the generator would
yield, i.e. the accumulated results_dict). -/
inductive Entry where
  | excEntry (e : PyErr)
  | genEntry (dict : List (String × List (String × CkInfo)))
deriving DecidableEq

/-- Python dict.update on the per-file info map: existing keys are
overwritten in place, new keys appended. -/
def mergeInfo (old new : List (String × CkInfo)) : List (String × CkInfo) :=
  (old.map (fun kv =>
      match new.lookup kv.1 with
      | some v => (kv.1, v)
      | none => kv)) ++
    new.filter (fun kv => old.lookup kv.1 = none)

/-- results_dict.setdefault(path, dict()).update(info). -/
def dictUpdate (dict : List (String × List (String × CkInfo)))
    (path : String) (info : List (String × CkInfo)) :
    List (String × List (String × CkInfo)) :=
  if dict.lookup path = none then dict ++ [(path, info)]
  else dict.map (fun kv => if kv.1 = path then (kv.1, mergeInfo kv.2 info) else kv)

/-- The second loop of assemble_results: successes whose file path saw no
exception are merged into results_dict; every other pair is routed to the
else branch, which subscripts the result with the string key exception —
a TypeError when the result is the ExpFileChecksum named tuple. -/
def assembleLoop (excPaths : List String) :
    List (String × VerifyRes) →
    List (String × List (String × CkInfo)) → List Entry → List String →
    Except PyErr (List (String × List (String × CkInfo)) × List Entry)
  | [], dict, batch, _ => Except.ok (dict, batch)
  | (file_path, r) :: rest, dict, batch, appended =>
      match r with
      | VerifyRes.ok rp info =>
          if rp ∉ excPaths then
            assembleLoop excPaths rest (dictUpdate dict rp info) batch appended
          else if file_path ∉ appended then
            Except.error (.typeError "tuple indices must be integers or slices, not str")
          else
            assembleLoop excPaths rest dict batch appended
      | VerifyRes.exc e =>
          if file_path ∉ appended then
            assembleLoop excPaths rest dict (batch ++ [Entry.excEntry e])
              (appended ++ [file_path])
          else
            assembleLoop excPaths rest dict batch appended

/-- Models assemble_results: collect the file paths of exception results,
run the routing loop, then append the generator expression itself (one
list element) to results_batch. -/
def assemble_results (tasks : List Task) (results : List VerifyRes) :
    Except PyErr (List Entry) := do
  let file_paths := tasks.map Prod.fst
  let excPaths :=
    ((file_paths.zip results).filter
        (fun pr => match pr.2 with | VerifyRes.ok _ _ => false | _ => true)).map
      Prod.fst
  let (dict, batch) ← assembleLoop excPaths (file_paths.zip results) [] [] []
  Except.ok (batch ++ [Entry.genEntry dict])

/-- Models handle: prepare the per-file checksum jobs (outside any job
boundary), run every job (executor.map preserves input order), and
assemble the results batch. -/
def handle (H : String → List Nat → String) (fs : FS)
    (argsBatch : List String) : Except PyErr (List Entry) := do
  let tasks ← get_exp_file_checksums fs argsBatch
  let results := tasks.map (verify_file_checksum H fs)
  assemble_results tasks results

/-- A concrete digest instantiation for closed theorems; never consulted
on the inputs used below. -/
def H0 : String → List Nat → String := fun _ _ => ""

/-- Two regular files, each carrying one correct adler32 expectation: both
jobs succeed. -/
def fsTwo : FS :=
  { entries :=
      [("/mnt/onedata/f1",
        { isFile := true, content := "",
          xattrs := [("checksum.adler32.expected", "1")] }),
       ("/mnt/onedata/f2",
        { isFile := true, content := "",
          xattrs := [("checksum.adler32.expected", "1")] })] }

/-- One regular file carrying a correct adler32 expectation and an
expectation for an algorithm hashlib does not provide: the first job
succeeds, the second fails. -/
def fsMixed : FS :=
  { entries :=
      [("/mnt/onedata/f",
        { isFile := true, content := "",
          xattrs := [("checksum.adler32.expected", "1"),
                     ("checksum.zzz.expected", "x")] })] }

end ChecksumMounted

namespace HeartbeatFn

/-!
Embedding of the heartbeat function of
src/bagit-uploader/calculate-checksum/function/handler.py.  A call trace
is a list of (current integer time, whether the POST would get a 2xx
response); the state is the LAST_HEARTBEAT_TIME global, initially 0 for
the invocation.
-/

def HEARTBEAT_INTERVAL_SEC : Int := 150

/-- Models repeated calls of heartbeat(): a call POSTs exactly when more
than the interval has passed since the last acknowledged POST, and only an
acknowledged (r.ok) POST updates LAST_HEARTBEAT_TIME.  The returned list
contains one element per POST actually emitted. -/
def heartbeat_run (last : Int) : List (Int × Bool) → List (Int × Bool)
  | [] => []
  | e :: rest =>
      if e.1 - last > HEARTBEAT_INTERVAL_SEC then
        e :: heartbeat_run (if e.2 then e.1 else last) rest
      else
        heartbeat_run last rest

/-- The POSTs emitted by a batch invocation for a given call trace. -/
def emissions (trace : List (Int × Bool)) : List (Int × Bool) :=
  heartbeat_run 0 trace

/-- Two heartbeat calls one second apart, both answered with failures. -/
def cx5 : List (Int × Bool) := [(200, false), (201, false)]

end HeartbeatFn

namespace ValidateNM

/-!
Embedding of the zip path of src/lambdas/bagit-uploader-validate/handler.py.
An opened zip archive is modelled as its entry list with contents: the
name list is the first projection, and archive.open(path) succeeds exactly
for listed names.
-/

def ZipModel := List (String × String)

def names (z : ZipModel) : List String := z.map Prod.fst

/-- Models ZipArchive(...).archive.open. -/
def zip_open (z : ZipModel) (p : String) : Except PyErr String :=
  match z.lookup p with
  | some c => Except.ok c
  | none => Except.error (.keyError p)

/-- State of the find_bagit_dir loop: collected second path components and
the first component of the most recently visited entry. -/
def findLoop : List String → List String → Option String →
    Except PyErr (List String × Option String)
  | [], rootFiles, rootDir => Except.ok (rootFiles, rootDir)
  | file :: rest, rootFiles, rootDir =>
      let path := Py.splitOnChar '/' file.data
      if path.length < 2 then
        let _ := rootDir
        Except.error (.indexError "list index out of range")
      else
        let rf := String.mk (path.getD 1 [])
        findLoop rest (if rf ∈ rootFiles then rootFiles else rootFiles ++ [rf])
          (some (String.mk (path.getD 0 [])))

/-- Models ZipArchive.find_bagit_dir: for every entry the second path
component is read without guarding against slash-free names (IndexError);
when bagit.txt appears among the collected second components the function
returns the first component of the last visited entry, otherwise it falls
through and returns None. -/
def find_bagit_dir (z : ZipModel) : Except PyErr (Option String) := do
  let (rootFiles, rootDir) ← findLoop (names z) [] none
  if "bagit.txt" ∈ rootFiles then Except.ok rootDir else Except.ok none

/-- Models ZipArchive.get_uncompressed_size: the loop body reads the
attribute getinfo on a string entry name, so any archive with at least one
entry raises AttributeError; an empty archive returns 0. -/
def get_uncompressed_size (z : ZipModel) : Except PyErr Nat :=
  match names z with
  | [] => Except.ok 0
  | _ :: _ => Except.error (.attrError "str object has no attribute getinfo")

/-- Python string interpolation of the Optional bagit directory. -/
def optStr : Option String → String
  | some s => s
  | none => "None"

/-- Models assert_proper_bagit_txt_content: readlines must unpack into
exactly two lines (ValueError otherwise), then the two regex checks reuse
the same patterns as the mounted validator. -/
def assert_proper_bagit_txt_content (content : String) : Except PyErr Unit :=
  match Py.pyReadlines content.data with
  | [l1, l2] =>
      if !Py.matchLine1 l1 then
        Except.error
          (.job "Invalid Tag-File-Character-Encoding definition in line 1 in bagit.txt")
      else if !Py.matchLine2 l2 then
        Except.error
          (.job "Invalid Tag-File-Character-Encoding definition in line 2 in bagit.txt")
      else Except.ok ()
  | _ => Except.error (.valueError "not enough values to unpack")

/-- Models search_for_fetch_file. -/
def search_for_fetch_file (archive_files : List String) (bagit_dir : String) :
    Except PyErr Unit :=
  if (bagit_dir ++ "/data") ∈ archive_files ∨ (bagit_dir ++ "/fetch.txt") ∈ archive_files
  then Except.ok ()
  else
    Except.error
      (.job ("Could not find fetch.txt file or /data directory inside bagit directory: "
        ++ bagit_dir ++ "."))

/-- Models the line loop of checksum_verification: split each tagmanifest
line into exactly an expected checksum and a relative path (ValueError
otherwise), open the referenced entry and compare checksums. -/
def checksumVerifyLines (H : String → List Nat → String) (z : ZipModel)
    (algorithm : String) (bagit_dir : String) :
    List (List Char) → Except PyErr Unit
  | [] => Except.ok ()
  | line :: rest =>
      match Py.pySplitWS (Py.pyStrip line) with
      | [e, r] => do
          let content ← zip_open z (bagit_dir ++ "/" ++ String.mk r)
          let calculated :=
            ValidateMounted.calculate_checksum H
              (Py.chunksOf ValidateMounted.READ_CHUNK_SIZE (Py.fileBytes content))
              algorithm
          if String.mk e ≠ calculated then
            Except.error
              (.mismatch algorithm (String.mk r) (String.mk e) calculated)
          else
            checksumVerifyLines H z algorithm bagit_dir rest
      | _ => Except.error (.valueError "not enough values to unpack")

/-- Models checksum_verification for one tagmanifest file. -/
def checksum_verification (H : String → List Nat → String) (z : ZipModel)
    (algorithm : String) (tagmanifest_file : String) (bagit_dir : String) :
    Except PyErr Unit := do
  let content ← zip_open z tagmanifest_file
  checksumVerifyLines H z algorithm bagit_dir (Py.pyReadlines content.data)

/-- The tagmanifest loop of assert_valid_archive: only the first algorithm
with a present tagmanifest file is verified (the loop breaks). -/
def tagLoop (H : String → List Nat → String) (z : ZipModel)
    (bagit_dir : String) : List String → Except PyErr Unit
  | [] => Except.ok ()
  | alg :: rest =>
      let tagmanifest_file := bagit_dir ++ "/tagmanifest-" ++ alg ++ ".txt"
      if tagmanifest_file ∈ names z then
        checksum_verification H z alg tagmanifest_file bagit_dir
      else
        tagLoop H z bagit_dir rest

/-- Models assert_valid_archive for a zip archive: find the bagit dir,
compute the uncompressed size, check bagit.txt content, require data or
fetch.txt, then verify the first present tagmanifest. -/
def assert_valid_archive (H : String → List Nat → String) (z : ZipModel) :
    Except PyErr Unit := do
  let bd ← find_bagit_dir z
  let _ ← get_uncompressed_size z
  let bdStr := optStr bd
  let content ← zip_open z (bdStr ++ "/bagit.txt")
  assert_proper_bagit_txt_content content
  search_for_fetch_file (names z) bdStr
  tagLoop H z bdStr ValidateMounted.ALGORITHMS

/-- The per-job results of run_job in the non-mounted validator: the
direct unsupported-file AtmException, the AtmException produced from a
caught exception (AssertBagitException is never raised, so every caught
exception is reported as a traceback), the success result, and a marker
for the tar/tgz branches, which this embedding does not model (they are
unreachable for names ending in .zip). -/
inductive NMOutcome where
  | unsupportedFile
  | excTrace (e : PyErr)
  | success (archiveName : String)
  | tarUnmodelled
deriving DecidableEq

/-- Models run_job of the non-mounted validator for a job whose archive
file opens as the given zip model when the name has a zip extension. -/
def run_job (H : String → List Nat → String) (ftype : String) (name : String)
    (z : ZipModel) : NMOutcome :=
  if ftype ≠ "REG" then NMOutcome.unsupportedFile
  else if Py.splitextExt name = ".tar" ∨ Py.splitextExt name = ".tgz" ∨
      Py.splitextExt name = ".gz" then NMOutcome.tarUnmodelled
  else if Py.splitextExt name = ".zip" then
    match assert_valid_archive H z with
    | Except.ok () => NMOutcome.success name
    | Except.error e => NMOutcome.excTrace e
  else
    NMOutcome.excTrace (.job ("Unsupported archive type: " ++ Py.splitextExt name))

/-- A concrete digest instantiation for the witness. -/
def H0 : String → List Nat → String := fun _ _ => ""

end ValidateNM

/-! ## Supporting lemmas and theorems -/

namespace Py

theorem adlerStep_lt (s : Nat × Nat) (x : Nat) :
    (adlerStep s x).1 < 65521 ∧ (adlerStep s x).2 < 65521 := by
  constructor <;> simp [adlerStep] <;> exact Nat.mod_lt _ (by omega)

theorem foldl_adlerStep_lt : ∀ (l : List Nat) (s : Nat × Nat) (x : Nat),
    (l.foldl adlerStep (adlerStep s x)).1 < 65521 ∧
      (l.foldl adlerStep (adlerStep s x)).2 < 65521 := by
  intro l
  induction l with
  | nil => intro s x; simpa using adlerStep_lt s x
  | cons y ys ih => intro s x; simpa using ih (adlerStep s x) y

theorem zlib_adler32_nil (v : Nat) : zlib_adler32 [] v = v := by
  simp [zlib_adler32]; omega

/-- Compositionality of the Adler-32 running value over concatenation. -/
theorem zlib_adler32_append (xs ys : List Nat) (v : Nat) :
    zlib_adler32 (xs ++ ys) v = zlib_adler32 ys (zlib_adler32 xs v) := by
  cases xs with
  | nil => simp [zlib_adler32_nil]
  | cons x xs' =>
      obtain ⟨h1, h2⟩ := foldl_adlerStep_lt xs' (v % 65536, v / 65536) x
      simp only [zlib_adler32, List.cons_append, List.foldl_cons, List.foldl_append]
      set st := List.foldl adlerStep (adlerStep (v % 65536, v / 65536) x) xs' with hst
      have e1 : (st.2 * 65536 + st.1) % 65536 = st.1 := by omega
      have e2 : (st.2 * 65536 + st.1) / 65536 = st.2 := by omega
      rw [e1, e2, Prod.mk.eta]

/-- Folding zlib.adler32 over a chunk list equals one pass over the
concatenated bytes. -/
theorem zlib_adler32_chunks : ∀ (chunks : List (List Nat)) (v : Nat),
    chunks.foldl (fun value data => zlib_adler32 data value) v =
      zlib_adler32 chunks.flatten v := by
  intro chunks
  induction chunks with
  | nil => intro v; simp [zlib_adler32_nil]
  | cons c cs ih =>
      intro v
      simp only [List.foldl_cons, List.flatten_cons]
      rw [ih, zlib_adler32_append]

theorem foldl_append_eq_join : ∀ (l : List (List α)) (acc : List α),
    l.foldl (fun acc d => acc ++ d) acc = acc ++ l.flatten := by
  intro l
  induction l with
  | nil => intro acc; simp
  | cons c cs ih => intro acc; simp [ih, List.append_assoc]

end Py

namespace ValidateMounted

/-- C8: calculate_checksum with algorithm adler32 seeds the running value
at 1, applies the standard Adler-32 update to each chunk in order (hence
to the concatenated byte stream), and returns the final integer formatted
as lowercase hexadecimal; for empty input it returns the string 1. -/
theorem adler32_seed_update_hex (H : String → List Nat → String)
    (chunks : List (List Nat)) :
    calculate_checksum H chunks "adler32" =
        Py.hexLower (Py.zlib_adler32 chunks.flatten 1) ∧
      calculate_checksum H [] "adler32" = "1" := by
  constructor
  · have e : calculate_checksum H chunks "adler32" =
        Py.hexLower (chunks.foldl (fun value data => Py.zlib_adler32 data value) 1) := rfl
    rw [e, Py.zlib_adler32_chunks]
  · have e : calculate_checksum H [] "adler32" = Py.hexLower 1 := rfl
    rw [e]
    decide

/-- C9: the chunking of the byte stream does not affect the checksum: any
two chunk lists with the same concatenation give the same hex string, for
adler32 because the update is compositional, and for the digest algorithms
because incremental update over the chunks digests the concatenation. -/
theorem calculate_checksum_chunk_invariant (H : String → List Nat → String)
    (algorithm : String) (xs ys : List (List Nat)) (h : xs.flatten = ys.flatten) :
    calculate_checksum H xs algorithm = calculate_checksum H ys algorithm := by
  unfold calculate_checksum
  by_cases ha : algorithm = "adler32"
  · rw [if_pos ha, if_pos ha, Py.zlib_adler32_chunks, Py.zlib_adler32_chunks, h]
  · rw [if_neg ha, if_neg ha, Py.foldl_append_eq_join, Py.foldl_append_eq_join, h]

/-- Witness for C9 at a concrete partition pair. -/
theorem calculate_checksum_chunk_invariant_witness :
    ([[1, 2], [3]] : List (List Nat)).flatten = ([[1], [2, 3]] : List (List Nat)).flatten ∧
      calculate_checksum H0 [[1, 2], [3]] "adler32" =
        calculate_checksum H0 [[1], [2, 3]] "adler32" :=
  ⟨by decide, calculate_checksum_chunk_invariant H0 "adler32" _ _ (by decide)⟩

end ValidateMounted

namespace Py

theorem dropWhile_all_append (p : Char → Bool) : ∀ (d w : List Char),
    (∀ c ∈ d, p c = true) → (d ++ w).dropWhile p = w.dropWhile p := by
  intro d
  induction d with
  | nil => intro w _; rfl
  | cons a d' ih =>
      intro w hd
      have ha : p a = true := hd a (by simp)
      simp only [List.cons_append, List.dropWhile_cons, ha, if_true]
      exact ih w (fun c hc => hd c (by simp [hc]))

theorem dropWhile_ws_append : ∀ (w v : List Char),
    (∀ c ∈ w, isPySpace c = true) →
    (∀ c, v.head? = some c → isPySpace c = false) →
    (w ++ v).dropWhile isPySpace = v := by
  intro w
  induction w with
  | nil =>
      intro v _ hv
      cases v with
      | nil => rfl
      | cons c cs =>
          have hc := hv c rfl
          simp [List.dropWhile_cons, hc]
  | cons a w' ih =>
      intro v hw hv
      have ha : isPySpace a = true := hw a (by simp)
      simp only [List.cons_append, List.dropWhile_cons, ha, if_true]
      exact ih v (fun c hc => hw c (by simp [hc])) hv

theorem matchC_iff (r : List Char) :
    matchC r = true ↔
      ∃ d w, r = d ++ w ∧ d ≠ [] ∧ (∀ c ∈ d, c.isDigit = true) ∧
        (∀ c ∈ w, isPySpace c = true) := by
  constructor
  · intro h
    cases r with
    | nil => simp [matchC] at h
    | cons x rest =>
        simp only [matchC, Bool.and_eq_true] at h
        obtain ⟨hx, hall⟩ := h
        refine ⟨x :: rest.takeWhile Char.isDigit, rest.dropWhile Char.isDigit,
          ?_, by simp, ?_, ?_⟩
        · simp [List.takeWhile_append_dropWhile]
        · intro c hc
          rcases List.mem_cons.mp hc with h1 | h2
          · exact h1 ▸ hx
          · exact List.mem_takeWhile_imp h2
        · exact fun c hc => List.all_eq_true.mp hall c hc
  · rintro ⟨d, w, rfl, hd, hdig, hws⟩
    cases d with
    | nil => exact absurd rfl hd
    | cons y d' =>
        simp only [List.cons_append, matchC, Bool.and_eq_true]
        refine ⟨hdig y (by simp), ?_⟩
        rw [dropWhile_all_append Char.isDigit d' w (fun c hc => hdig c (by simp [hc]))]
        exact List.all_eq_true.mpr
          (fun c hc => hws c ((List.dropWhile_sublist _).subset hc))

theorem matchB_iff : ∀ (r : List Char),
    matchB r = true ↔
      ∃ d c t, r = d ++ c :: t ∧ (∀ x ∈ d, x.isDigit = true) ∧ c ≠ '\n' ∧
        matchC t = true := by
  intro r
  induction r with
  | nil =>
      constructor
      · intro h; simp [matchB] at h
      · rintro ⟨d, c, t, h, -, -, -⟩
        exact absurd h.symm (by simp)
  | cons a rest ih =>
      constructor
      · intro h
        simp only [matchB, Bool.or_eq_true, Bool.and_eq_true] at h
        rcases h with ⟨hd, hb⟩ | ⟨hne, hc⟩
        · obtain ⟨d, c, t, rfl, hdig, hcne, hct⟩ := ih.mp hb
          refine ⟨a :: d, c, t, rfl, ?_, hcne, hct⟩
          intro x hx
          rcases List.mem_cons.mp hx with h1 | h2
          · exact h1 ▸ hd
          · exact hdig x h2
        · exact ⟨[], a, rest, rfl, by simp, by simpa using hne, hc⟩
      · rintro ⟨d, c, t, he, hdig, hcne, hct⟩
        cases d with
        | nil =>
            simp only [List.nil_append] at he
            obtain ⟨rfl, rfl⟩ := List.cons.inj he
            simp only [matchB, Bool.or_eq_true, Bool.and_eq_true]
            exact Or.inr ⟨by simpa using hcne, hct⟩
        | cons y d' =>
            simp only [List.cons_append] at he
            obtain ⟨h1, h2⟩ := List.cons.inj he
            subst h1
            subst h2
            simp only [matchB, Bool.or_eq_true, Bool.and_eq_true]
            refine Or.inl ⟨hdig a (by simp), ?_⟩
            exact ih.mpr ⟨d', c, t, rfl, fun x hx => hdig x (by simp [hx]), hcne, hct⟩

theorem matchA_iff (r : List Char) :
    matchA r = true ↔
      ∃ d1 c t, r = d1 ++ c :: t ∧ d1 ≠ [] ∧ (∀ x ∈ d1, x.isDigit = true) ∧
        c ≠ '\n' ∧ matchC t = true := by
  constructor
  · intro h
    cases r with
    | nil => simp [matchA] at h
    | cons a rest =>
        simp only [matchA, Bool.and_eq_true] at h
        obtain ⟨ha, hb⟩ := h
        obtain ⟨d, c, t, rfl, hdig, hcne, hct⟩ := (matchB_iff rest).mp hb
        refine ⟨a :: d, c, t, rfl, by simp, ?_, hcne, hct⟩
        intro x hx
        rcases List.mem_cons.mp hx with h1 | h2
        · exact h1 ▸ ha
        · exact hdig x h2
  · rintro ⟨d1, c, t, rfl, hne, hdig, hcne, hct⟩
    cases d1 with
    | nil => exact absurd rfl hne
    | cons y d' =>
        simp only [List.cons_append, matchA, Bool.and_eq_true]
        refine ⟨hdig y (by simp), ?_⟩
        exact (matchB_iff _).mpr ⟨d', c, t, rfl, fun x hx => hdig x (by simp [hx]), hcne, hct⟩

end Py

namespace ValidateMounted

theorem matchLine1_iff (l : List Char) : Py.matchLine1 l = true ↔ SemLine1 l := by
  constructor
  · intro h
    simp only [Py.matchLine1, Bool.and_eq_true] at h
    obtain ⟨hpre, hA⟩ := h
    obtain ⟨t, ht⟩ := List.isPrefixOf_iff_prefix.mp hpre
    rw [← ht, List.drop_left] at hA
    obtain ⟨d1, c, t', rfl, hne, hdig, hcne, hct⟩ := (Py.matchA_iff t).mp hA
    obtain ⟨d2, w2, rfl, hd2ne, hd2, hw2⟩ := (Py.matchC_iff t').mp hct
    refine ⟨l.takeWhile Py.isPySpace, d1, c, d2, w2, ?_, ?_, hne, hdig, hcne, hd2ne, hd2, hw2⟩
    · conv_lhs => rw [← List.takeWhile_append_dropWhile Py.isPySpace l]
      rw [← ht]
      simp [List.append_assoc]
    · exact fun x hx => List.mem_takeWhile_imp hx
  · rintro ⟨w1, d1, c, d2, w2, rfl, hw1, hne, hdig, hcne, hd2ne, hd2, hw2⟩
    have hlit : Py.lit1 = 'B' :: "agIt-Version: ".data := by decide
    have hdw : (w1 ++ (Py.lit1 ++ (d1 ++ c :: (d2 ++ w2)))).dropWhile Py.isPySpace =
        Py.lit1 ++ (d1 ++ c :: (d2 ++ w2)) := by
      apply Py.dropWhile_ws_append _ _ hw1
      intro ch hch
      rw [hlit, List.cons_append] at hch
      simp only [List.head?_cons, Option.some.injEq] at hch
      rw [← hch]
      decide
    simp only [Py.matchLine1, Bool.and_eq_true, List.append_assoc, hdw]
    constructor
    · exact List.isPrefixOf_iff_prefix.mpr ⟨_, rfl⟩
    · rw [List.drop_left]
      exact (Py.matchA_iff _).mpr ⟨d1, c, d2 ++ w2, rfl, hne, hdig, hcne,
        (Py.matchC_iff _).mpr ⟨d2, w2, rfl, hd2ne, hd2, hw2⟩⟩

theorem matchLine2_iff (l : List Char) : Py.matchLine2 l = true ↔ SemLine2 l := by
  constructor
  · intro h
    simp only [Py.matchLine2, Bool.and_eq_true] at h
    obtain ⟨hpre, hw⟩ := h
    obtain ⟨t, ht⟩ := List.isPrefixOf_iff_prefix.mp hpre
    rw [← ht, List.drop_left] at hw
    cases t with
    | nil => simp at hw
    | cons c t' =>
        refine ⟨l.takeWhile Py.isPySpace, c, t', ?_, fun x hx => List.mem_takeWhile_imp hx, hw⟩
        conv_lhs => rw [← List.takeWhile_append_dropWhile Py.isPySpace l]
        rw [← ht]
        simp [List.append_assoc]
  · rintro ⟨w1, c, t, rfl, hw1, hword⟩
    have hlit : Py.lit2 = 'T' :: "ag-File-Character-Encoding: ".data := by decide
    have hdw : (w1 ++ (Py.lit2 ++ c :: t)).dropWhile Py.isPySpace = Py.lit2 ++ c :: t := by
      apply Py.dropWhile_ws_append _ _ hw1
      intro ch hch
      rw [hlit, List.cons_append] at hch
      simp only [List.head?_cons, Option.some.injEq] at hch
      rw [← hch]
      decide
    simp only [Py.matchLine2, Bool.and_eq_true, List.append_assoc, hdw]
    refine ⟨List.isPrefixOf_iff_prefix.mpr ⟨_, rfl⟩, ?_⟩
    rw [List.drop_left]
    exact hword

end ValidateMounted

namespace ValidateMounted

/-- C6 (counterexample): the claim says bagit.txt validation accepts
exactly two-line contents whose first line is BagIt-Version: int dot int
and whose second line is the encoding literal plus a non-empty token; but
the unescaped dot in the regex matches any character, so the code accepts
a content whose version separator is the letter x, which the claimed
acceptance set rejects. -/
theorem validate_bagit_txt_cex :
    validate_bagit_txt_content cx6 = Except.ok () ∧ specBagitAccepts cx6 = false := by
  constructor
  · decide
  · decide

/-- C6 (amended): validate_bagit_txt accepts exactly the contents with
exactly two readlines lines such that line 1 is optional whitespace,
the BagIt-Version literal, a non-empty digit run, one arbitrary
non-newline character (the unescaped regex dot), a non-empty digit run
and trailing whitespace, and line 2 is optional whitespace, the
Tag-File-Character-Encoding literal and at least one word character
(arbitrary text may follow); a wrong line count raises the generic
format error and a failing line raises an error naming that line. -/
theorem validate_bagit_txt_accepts_iff (content : String) :
    validate_bagit_txt_content content = Except.ok () ↔
      ∃ l1 l2, Py.pyReadlines content.data = [l1, l2] ∧ SemLine1 l1 ∧ SemLine2 l2 := by
  unfold validate_bagit_txt_content
  cases h : Py.pyReadlines content.data with
  | nil => simp
  | cons l1 rest =>
      cases rest with
      | nil => simp
      | cons l2 rest2 =>
          cases rest2 with
          | cons l3 rest3 => simp
          | nil =>
              constructor
              · intro hok
                by_cases h1 : Py.matchLine1 l1
                · by_cases h2 : Py.matchLine2 l2
                  · exact ⟨l1, l2, rfl, (matchLine1_iff l1).mp h1, (matchLine2_iff l2).mp h2⟩
                  · rw [Bool.not_eq_true] at h2
                    simp [h1, h2] at hok
                · rw [Bool.not_eq_true] at h1
                  simp [h1] at hok
              · rintro ⟨l1', l2', heq, hs1, hs2⟩
                obtain ⟨rfl, h2⟩ := List.cons.inj heq
                obtain ⟨rfl, -⟩ := List.cons.inj h2
                simp [(matchLine1_iff _).mpr hs1, (matchLine2_iff _).mpr hs2]

end ValidateMounted

namespace ValidateMounted

theorem validatePayloadLoop_spec (arc : ArchiveData) (payload : Finset String)
    (entriesFn : String → List (String × String)) :
    ∀ ms : List String,
    (∀ m ∈ ms, parse_manifest_file m arc = Except.ok (entriesFn m)) →
    ((validatePayloadLoop arc payload ms = Except.ok () ↔
        ∀ m ∈ ms, payload = refSet (entriesFn m)) ∧
      (∀ m, ms.find? (fun m => decide (payload ≠ refSet (entriesFn m))) = some m →
        validatePayloadLoop arc payload ms =
          Except.error (.jobSets (mismatchMsg m) (payload \ refSet (entriesFn m))
            (refSet (entriesFn m) \ payload)))) := by
  intro ms
  induction ms with
  | nil =>
      intro _
      constructor
      · simp [validatePayloadLoop]
      · intro m hm; simp [List.find?] at hm
  | cons m0 rest ih =>
      intro hp
      have hm0 : parse_manifest_file m0 arc = Except.ok (entriesFn m0) := hp m0 (by simp)
      have hrest := ih (fun m hm => hp m (by simp [hm]))
      have hstep : validatePayloadLoop arc payload (m0 :: rest) =
          (if payload ≠ refSet (entriesFn m0) then
            Except.error (.jobSets (mismatchMsg m0) (payload \ refSet (entriesFn m0))
              (refSet (entriesFn m0) \ payload))
          else validatePayloadLoop arc payload rest) := by
        simp only [validatePayloadLoop, hm0]
        rfl
      by_cases heq : payload = refSet (entriesFn m0)
      · have hfalse : (decide (payload ≠ refSet (entriesFn m0))) = false := by simp [heq]
        constructor
        · rw [hstep, if_neg (fun hne => hne heq), hrest.1]
          constructor
          · intro hall m hm
            rcases List.mem_cons.mp hm with h1 | h2
            · exact h1 ▸ heq
            · exact hall m h2
          · intro hall m hm
            exact hall m (by simp [hm])
        · intro m hm
          rw [List.find?] at hm
          rw [hfalse] at hm
          rw [hstep, if_neg (fun hne => hne heq)]
          exact hrest.2 m hm
      · have htrue : (decide (payload ≠ refSet (entriesFn m0))) = true := by simp [heq]
        constructor
        · rw [hstep, if_pos heq]
          constructor
          · intro h; exact absurd h (by simp)
          · intro hall; exact absurd (hall m0 (by simp)) heq
        · intro m hm
          rw [List.find?] at hm
          rw [htrue] at hm
          obtain rfl : m0 = m := Option.some.inj hm
          rw [hstep, if_pos heq]

/-- C4: validate_payload succeeds exactly when the set of entries under the
data directory unioned with the paths declared in fetch.txt equals the set
of paths referenced by each manifest file, and on the first mismatching
manifest it fails with an error reporting both the present-but-unreferenced
and referenced-but-missing sets. -/
theorem validate_payload_exact_match (arc : ArchiveData) (root : String)
    (fetched : List String) (entriesFn : String → List (String × String))
    (hroot : get_bagit_dir_name arc = Except.ok root)
    (hfetch : parse_fetch_file arc = Except.ok fetched)
    (hparse : ∀ m ∈ manifestList arc root,
      parse_manifest_file m arc = Except.ok (entriesFn m)) :
    (validate_payload arc = Except.ok () ↔
        ∀ m ∈ manifestList arc root,
          payload_files arc root fetched = refSet (entriesFn m)) ∧
      (∀ m, (manifestList arc root).find?
            (fun m => decide (payload_files arc root fetched ≠ refSet (entriesFn m)))
            = some m →
        validate_payload arc =
          Except.error (.jobSets (mismatchMsg m)
            (payload_files arc root fetched \ refSet (entriesFn m))
            (refSet (entriesFn m) \ payload_files arc root fetched))) := by
  have hbuild : build_file_path arc "data/" false = Except.ok (root ++ "/data/") := by
    unfold build_file_path
    rw [hroot]
    show Except.ok (root ++ "/" ++ "data/") = _
    rw [String.append_assoc, show ("/" ++ "data/" : String) = "/data/" from by decide]
  have hlist : list_manifest_files arc = Except.ok (manifestList arc root) := by
    unfold list_manifest_files
    rw [hroot]
    rfl
  have hvp : validate_payload arc =
      validatePayloadLoop arc (payload_files arc root fetched) (manifestList arc root) := by
    unfold validate_payload
    rw [hbuild, hfetch, hlist]
    rfl
  rw [hvp]
  exact validatePayloadLoop_spec arc (payload_files arc root fetched) entriesFn
    (manifestList arc root) hparse

/-- Witness for C4 at a concrete mismatching bag. -/
theorem validate_payload_exact_match_witness :
    get_bagit_dir_name arc4 = Except.ok "b" ∧
      parse_fetch_file arc4 = Except.ok [] ∧
      parse_manifest_file "b/manifest-md5.txt" arc4 = Except.ok [("x", "data/f")] ∧
      validate_payload arc4 =
        Except.error (.jobSets (mismatchMsg "b/manifest-md5.txt")
          (payload_files arc4 "b" [] \ refSet [("x", "data/f")])
          (refSet [("x", "data/f")] \ payload_files arc4 "b" [])) :=
  ⟨by decide, by decide, by decide,
    (validate_payload_exact_match arc4 "b" [] (fun _ => [("x", "data/f")])
        (by decide) (by decide) (by decide)).2 "b/manifest-md5.txt" (by decide)⟩

end ValidateMounted

namespace ValidateMounted

theorem anyTagLoop_first (H : String → List Nat → String) (arc : ArchiveData)
    (root : String) (hroot : get_bagit_dir_name arc = Except.ok root) :
    ∀ algs : List String,
      anyTagLoop H arc algs =
        match algs.find? (fun alg => decide (tagfilePath root alg ∈ arc.files)) with
        | none => Except.ok ()
        | some alg => checkTagmanifest H arc (tagfilePath root alg) alg := by
  intro algs
  induction algs with
  | nil => simp [anyTagLoop, List.find?]
  | cons a rest ih =>
      have hb : build_file_path arc ("tagmanifest-" ++ a ++ ".txt") false =
          Except.ok (tagfilePath root a) := by
        unfold build_file_path
        rw [hroot]
        rfl
      have hstep : anyTagLoop H arc (a :: rest) =
          (if tagfilePath root a ∈ arc.files then
            checkTagmanifest H arc (tagfilePath root a) a
          else anyTagLoop H arc rest) := by
        simp only [anyTagLoop, hb]
        rfl
      by_cases hmem : tagfilePath root a ∈ arc.files
      · rw [hstep, if_pos hmem, List.find?_cons_of_pos _ (by simpa using hmem)]
      · rw [hstep, if_neg hmem, List.find?_cons_of_neg _ (by simpa using hmem), ih]

/-- C7 (counterexample): the claim requires every present tagmanifest file
to be validated, but the archive cx7 passes validation although its
tagmanifest-md5.txt is present and references a file that does not exist
in the archive: only the first algorithm with a present tagmanifest is
checked. -/
theorem validate_any_tagmanifest_cex :
    validate_any_tagmanifest_file H0 cx7 = Except.ok () ∧
      "b/tagmanifest-md5.txt" ∈ cx7.files ∧
      parse_manifest_file "b/tagmanifest-md5.txt" cx7 =
        Except.ok [("deadbeef", "missing.txt")] ∧
      "b/missing.txt" ∉ cx7.files := by
  refine ⟨by decide, by decide, by decide, by decide⟩

/-- C7 (amended): validation processes exactly the first algorithm, in
the iteration order of the algorithm set, whose tagmanifest file is
present — its lines are parsed, each referenced file resolved and
checksummed, and a mismatch raises the error carrying algorithm, path,
expected and calculated values — while tagmanifest files of all later
algorithms are skipped. -/
theorem validate_any_tagmanifest_first_present (H : String → List Nat → String)
    (arc : ArchiveData) (root : String)
    (hroot : get_bagit_dir_name arc = Except.ok root) :
    validate_any_tagmanifest_file H arc =
      match ALGORITHMS.find? (fun alg => decide (tagfilePath root alg ∈ arc.files)) with
      | none => Except.ok ()
      | some alg => checkTagmanifest H arc (tagfilePath root alg) alg :=
  anyTagLoop_first H arc root hroot ALGORITHMS

/-- Witness for the amended C7 theorem at the concrete archive cx7. -/
theorem validate_any_tagmanifest_first_present_witness :
    get_bagit_dir_name cx7 = Except.ok "b" ∧
      ALGORITHMS.find? (fun alg => decide (tagfilePath "b" alg ∈ cx7.files)) =
        some "adler32" ∧
      validate_any_tagmanifest_file H0 cx7 =
        checkTagmanifest H0 cx7 (tagfilePath "b" "adler32") "adler32" := by
  refine ⟨by decide, by decide, ?_⟩
  have h := validate_any_tagmanifest_first_present H0 cx7 "b" (by decide)
  rw [show ALGORITHMS.find? (fun alg => decide (tagfilePath "b" alg ∈ cx7.files)) =
    some "adler32" from by decide] at h
  exact h

end ValidateMounted

namespace ValidateMounted

theorem validate_structure_error (arc : ArchiveData) :
    validate_structure arc =
      (match build_file_path arc "bagit.txt" false with
       | Except.error e => Except.error e
       | Except.ok p =>
           if p ∉ arc.files then Except.error (.job "bagit.txt file not found")
           else
             Except.error
               (.typeError
                 "list_manifest_files takes 1 positional argument but 2 were given")) := by
  unfold validate_structure
  cases build_file_path arc "bagit.txt" false <;> rfl

theorem validate_structure_ne_ok (arc : ArchiveData) (u : Unit) :
    validate_structure arc ≠ Except.ok u := by
  rw [validate_structure_error]
  cases hb : build_file_path arc "bagit.txt" false with
  | error e => simp
  | ok p =>
      by_cases hp : p ∉ arc.files
      · simp [hp]
      · simp [hp]

theorem assert_valid_archive_ne_ok (H : String → List Nat → String)
    (arc : ArchiveData) (u : Unit) : assert_valid_archive H arc ≠ Except.ok u := by
  cases hs : validate_structure arc with
  | ok v => exact absurd hs (validate_structure_ne_ok arc v)
  | error e =>
      intro h
      rw [show assert_valid_archive H arc = Except.error e from by
        unfold assert_valid_archive; rw [hs]; rfl] at h
      exact Except.noConfusion h

/-- C1: on a minimal valid bag, run_job of the mounted validator returns
the failed-to-validate result — the extra-argument call
archive.list_manifest_files(archive) in validate_structure raises
TypeError — rather than the valid-archive success result; moreover no
input whatsoever can produce the success result. -/
theorem run_job_minimal_bag_fails :
    run_job H0 "REG" "bag.tar" minimalBag =
        VMOutcome.failed "bag.tar"
          (.typeError "list_manifest_files takes 1 positional argument but 2 were given") ∧
      ∀ (H : String → List Nat → String) (ftype name : String) (arc : ArchiveData)
        (n : String), run_job H ftype name arc ≠ VMOutcome.valid n := by
  constructor
  · decide
  · intro H ftype name arc n h
    unfold run_job at h
    by_cases h1 : ftype ≠ "REG"
    · rw [if_pos h1] at h
      exact VMOutcome.noConfusion h
    · rw [if_neg h1] at h
      by_cases h2 : Py.splitextExt name = ".zip" ∨ Py.splitextExt name = ".tar" ∨
          Py.splitextExt name = ".tgz" ∨ Py.splitextExt name = ".gz"
      · rw [if_pos h2] at h
        cases ha : assert_valid_archive H arc with
        | ok v => exact absurd ha (assert_valid_archive_ne_ok H arc v)
        | error e =>
            rw [ha] at h
            by_cases hj : e.isJobExc
            · simp [hj] at h
            · simp [hj] at h
      · rw [if_neg h2] at h
        exact VMOutcome.noConfusion h

end ValidateMounted

namespace ChecksumMounted

/-- C2: resultsBatch does not have one entry per input job: the final
results_batch.append adds the generator expression itself as a single
trailing element, so the empty batch yields one entry instead of zero and
a two-job successful batch yields one entry instead of two, with both
per-file results folded into that single element. -/
theorem handle_batch_length_mismatch :
    handle H0 { entries := [] } [] = Except.ok [Entry.genEntry []] ∧
      ([Entry.genEntry []] : List Entry).length ≠ ([] : List String).length ∧
      handle H0 fsTwo ["f1", "f2"] =
        Except.ok [Entry.genEntry
          [("/mnt/onedata/f1",
            [("adler32", { expected := "1", calculated := "1", status := "ok" })]),
           ("/mnt/onedata/f2",
            [("adler32", { expected := "1", calculated := "1", status := "ok" })])]] ∧
      ([Entry.genEntry []] : List Entry).length ≠ (["f1", "f2"] : List String).length := by
  refine ⟨by decide, by decide, by decide, by decide⟩

/-- C3: a per-job failure can abort the whole batch: with one file
carrying a correct adler32 expectation and an expectation for an unknown
algorithm, the second job duly produces its AtmException result, but
assemble_results then subscripts the first (successful) named-tuple
result with the string key exception, raising a TypeError that escapes
handle, so no job in the batch gets a result. -/
theorem handle_exception_escapes :
    handle H0 fsMixed ["f"] =
      Except.error (.typeError "tuple indices must be integers or slices, not str") := by
  decide

end ChecksumMounted

namespace HeartbeatFn

/-- C5 (counterexample): with the scheduler answering every POST with a
failure, the heartbeat function POSTs on every call, because only an
acknowledged POST advances LAST_HEARTBEAT_TIME: the sorted trace cx5
yields two POST emissions only one second apart, not at most one per
interval. -/
theorem heartbeat_rate_limit_cex :
    ((200 : Int) ≤ 201) ∧
      emissions cx5 = [(200, false), (201, false)] ∧
      ¬((201 : Int) - 200 > HEARTBEAT_INTERVAL_SEC) := by
  refine ⟨by decide, by decide, by decide⟩

theorem heartbeat_ok_rate_limited_aux : ∀ (trace : List (Int × Bool)) (last : Int),
    List.Pairwise (fun a b => b.1 - a.1 > HEARTBEAT_INTERVAL_SEC)
        ((heartbeat_run last trace).filter (fun e => e.2)) ∧
      ∀ e ∈ (heartbeat_run last trace).filter (fun e => e.2),
        e.1 - last > HEARTBEAT_INTERVAL_SEC := by
  intro trace
  induction trace with
  | nil => intro last; simp [heartbeat_run]
  | cons e rest ih =>
      intro last
      have hI : (0 : Int) ≤ HEARTBEAT_INTERVAL_SEC := by decide
      by_cases hc : e.1 - last > HEARTBEAT_INTERVAL_SEC
      · rw [show heartbeat_run last (e :: rest) =
            e :: heartbeat_run (if e.2 then e.1 else last) rest from by
          simp [heartbeat_run, hc]]
        by_cases he : e.2
        · rw [show (e :: heartbeat_run (if e.2 then e.1 else last) rest).filter
                (fun e => e.2) =
              e :: (heartbeat_run e.1 rest).filter (fun e => e.2) from by
            simp [List.filter_cons, he]]
          constructor
          · exact List.Pairwise.cons (fun b hb => (ih e.1).2 b hb) (ih e.1).1
          · intro b hb
            rcases List.mem_cons.mp hb with rfl | hbm
            · exact hc
            · have h2 := (ih e.1).2 b hbm
              omega
        · rw [show (e :: heartbeat_run (if e.2 then e.1 else last) rest).filter
                (fun e => e.2) =
              (heartbeat_run last rest).filter (fun e => e.2) from by
            simp [List.filter_cons, he]]
          exact ih last
      · rw [show heartbeat_run last (e :: rest) = heartbeat_run last rest from by
          simp [heartbeat_run, hc]]
        exact ih last

/-- C5 (amended): within one batch invocation at most one acknowledged
heartbeat POST occurs per interval: any two successful emissions of a
call trace are separated by more than HEARTBEAT_INTERVAL_SEC seconds;
unacknowledged POSTs, however, are retried on the very next call without
any rate limit, which is what falsifies the original claim. -/
theorem heartbeat_ok_rate_limited (trace : List (Int × Bool)) :
    List.Pairwise (fun a b => b.1 - a.1 > HEARTBEAT_INTERVAL_SEC)
      ((emissions trace).filter (fun e => e.2)) :=
  (heartbeat_ok_rate_limited_aux trace 0).1

end HeartbeatFn

namespace ValidateNM

theorem splitextExt_of_zip_suffix (name : String)
    (h : ".zip".data.isSuffixOf name.data = true) :
    Py.splitextExt name = ".zip" ∨ Py.splitextExt name = "" := by
  obtain ⟨p, hp⟩ := List.isSuffixOf_iff_suffix.mp h
  have key : Py.splitextExt name =
      (if p.reverse.all (fun c => c == '.') then "" else ".zip") := by
    unfold Py.splitextExt
    rw [← hp, List.reverse_append,
      show (".zip".data.reverse) = ['p', 'i', 'z', '.'] from by decide]
    rfl
  rw [key]
  by_cases hall : p.reverse.all (fun c => c == '.')
  · right; rw [if_pos hall]
  · left; rw [if_neg hall]

theorem assert_valid_archive_zip_ne_ok (H : String → List Nat → String)
    (z : ZipModel) (u : Unit) : assert_valid_archive H z ≠ Except.ok u := by
  intro h
  cases z with
  | nil =>
      rw [show assert_valid_archive H ([] : ZipModel) =
          Except.error (.keyError "None/bagit.txt") from rfl] at h
      exact Except.noConfusion h
  | cons e es =>
      cases hf : find_bagit_dir (e :: es) with
      | error err =>
          rw [show assert_valid_archive H (e :: es) = Except.error err from by
            unfold assert_valid_archive; rw [hf]; rfl] at h
          exact Except.noConfusion h
      | ok bd =>
          rw [show assert_valid_archive H (e :: es) =
              Except.error (.attrError "str object has no attribute getinfo") from by
            unfold assert_valid_archive; rw [hf]; rfl] at h
          exact Except.noConfusion h

/-- C10: in the non-mounted validator every job whose archive name ends
in .zip returns an exception result, never the success result: an archive
with at least one entry raises AttributeError in get_uncompressed_size
(the attribute getinfo is read on a string entry name), an empty zip
fails with KeyError when bagit.txt is opened under the None bagit
directory, and a name whose basename is only dots has no extension and is
rejected as an unsupported archive type. -/
theorem zip_job_never_succeeds (H : String → List Nat → String)
    (ftype name : String) (z : ZipModel)
    (h : ".zip".data.isSuffixOf name.data = true) :
    ∀ n : String, run_job H ftype name z ≠ NMOutcome.success n := by
  intro n hcon
  unfold run_job at hcon
  by_cases h1 : ftype ≠ "REG"
  · rw [if_pos h1] at hcon
    exact NMOutcome.noConfusion hcon
  · rw [if_neg h1] at hcon
    rcases splitextExt_of_zip_suffix name h with hz | hz
    · rw [hz] at hcon
      rw [if_neg (by decide), if_pos rfl] at hcon
      cases ha : assert_valid_archive H z with
      | ok v => exact absurd ha (assert_valid_archive_zip_ne_ok H z v)
      | error e =>
          rw [ha] at hcon
          exact NMOutcome.noConfusion hcon
    · rw [hz] at hcon
      rw [if_neg (by decide), if_neg (by decide)] at hcon
      exact NMOutcome.noConfusion hcon

/-- Witness for C10 at a concrete zip job. -/
theorem zip_job_never_succeeds_witness :
    (".zip".data.isSuffixOf "bag.zip".data = true) ∧
      run_job H0 "REG" "bag.zip" [("bag/bagit.txt", "x")] ≠
        NMOutcome.success "bag.zip" :=
  ⟨by decide,
    zip_job_never_succeeds H0 "REG" "bag.zip" [("bag/bagit.txt", "x")]
      (by decide) "bag.zip"⟩

end ValidateNM
